import Mathlib

/-!
Verification development for the vox-prismatic desktop companion app
(meeting detection engine and recording lifecycle coordinator).

The Rust sources under `apps/desktop/src-tauri/src` are shallowly embedded:
strings are modelled as `List Char`, timestamps (`chrono::DateTime<Utc>`,
compared and subtracted in whole seconds) as `Nat`, file paths as their
file-name strings, and the side-effecting probe calls as an explicit
snapshot record of their results.  Fallible operations return `Except`.
-/

namespace Vox

/-! ### Rust string-operation models over `List Char` -/

/-- Model of Rust `str::starts_with` / substring-at-position tests:
`needle.isPrefixOf hay` via Lean's `List.isPrefixOf` (element-wise `==`). -/
def isPrefixList (needle hay : List Char) : Bool :=
  needle.isPrefixOf hay

/-- Model of Rust `str::contains(pattern)`: `needle` occurs contiguously in
`hay`. -/
def containsSub (needle : List Char) : List Char → Bool
  | [] => needle.isEmpty
  | c :: rest => needle.isPrefixOf (c :: rest) || containsSub needle rest

/-- Model of Rust `str::ends_with(pattern)`. -/
def endsWithSub (needle hay : List Char) : Bool :=
  needle.reverse.isPrefixOf hay.reverse

/-- Model of Rust `str::find(pattern)` composed with slicing off the match:
returns the suffix of `hay` starting at the first occurrence of `needle`
(so Rust's `&hay[start + needle.len()..]` is `(afterFirst needle hay).drop
needle.length`). -/
def afterFirst (needle : List Char) : List Char → Option (List Char)
  | [] => if needle.isEmpty then some [] else none
  | c :: rest =>
      if needle.isPrefixOf (c :: rest) then some (c :: rest)
      else afterFirst needle rest

/-- Split on newline characters, keeping empty segments. -/
def splitNl : List Char → List Char × List (List Char)
  | [] => ([], [])
  | c :: rest =>
      let (seg, segs) := splitNl rest
      if c = '\n' then ([], seg :: segs) else (c :: seg, segs)

/-- Strip one trailing carriage return, as Rust `str::lines` does per line. -/
def stripCR (l : List Char) : List Char :=
  if l.getLast? = some '\r' then l.dropLast else l

/-- Model of Rust `str::lines`: split on `'\n'`, drop a final empty segment
produced by a trailing newline, and strip a trailing `'\r'` from each line. -/
def rustLines (s : List Char) : List (List Char) :=
  match s with
  | [] => []
  | _ =>
      let (seg, segs) := splitNl s
      let parts := seg :: segs
      let parts := if s.getLast? = some '\n' then parts.dropLast else parts
      parts.map stripCR

/-! ### Meeting detector data model (`meeting_detector.rs`) -/

/-- `MeetingApp` from `meeting_detector.rs`. -/
inductive MeetingApp where
  | Zoom
  | SlackHuddle
  | GoogleMeet
  | MicrosoftTeams
  | Discord
  | Unknown (name : String)
deriving DecidableEq, Repr

/-- `MeetingState` from `meeting_detector.rs`; `started_at` timestamps are
`Nat` seconds. -/
structure MeetingState where
  is_in_meeting : Bool
  detected_app : Option MeetingApp
  started_at : Option Nat
deriving DecidableEq, Repr

/-- The `MeetingState` installed by `MeetingDetector::new`. -/
def newMeetingState : MeetingState :=
  { is_in_meeting := false, detected_app := none, started_at := none }

/-- One iteration of the poll loop body in `start_monitoring` acting on the
shared `MeetingState`: `detected` is this tick's classifier output and `now`
is `chrono::Utc::now()` at the tick. -/
def pollTick (st : MeetingState) (detected : Option MeetingApp) (now : Nat) :
    MeetingState :=
  match detected with
  | some app =>
      if st.is_in_meeting then st
      else { is_in_meeting := true, detected_app := some app,
             started_at := some now }
  | none =>
      if st.is_in_meeting then
        { is_in_meeting := false, detected_app := none, started_at := none }
      else st

/-- Run a sequence of poll ticks (classifier output and wall-clock second for
each tick). -/
def runTicks (st : MeetingState) : List (Option MeetingApp × Nat) → MeetingState
  | [] => st
  | (d, n) :: rest => runTicks (pollTick st d n) rest

/-- The spec's `MeetingState` invariant: `is_in_meeting` holds exactly when
`detected_app` is `Some`, exactly when `started_at` is `Some`. -/
def meetingInv (st : MeetingState) : Prop :=
  st.is_in_meeting = st.detected_app.isSome ∧
  st.is_in_meeting = st.started_at.isSome

/-- Full `MeetingDetector` state: the shared `MeetingState` plus the
`monitoring` flag. -/
structure DetectorState where
  state : MeetingState
  monitoring : Bool
deriving DecidableEq, Repr

/-- `MeetingDetector::new`. -/
def newDetector : DetectorState :=
  { state := newMeetingState, monitoring := false }

/-- `MeetingDetector::start_monitoring`: errs when the monitoring flag is
already set, otherwise sets it (the spawned loop itself is modelled by
`runTicks`). -/
def start_monitoring (d : DetectorState) : Except String DetectorState :=
  if d.monitoring then .error "Already monitoring"
  else .ok { d with monitoring := true }

/-- `MeetingDetector::stop_monitoring`: unconditionally clears the flag. -/
def stop_monitoring (d : DetectorState) : DetectorState :=
  { d with monitoring := false }

/-! ### Meeting classifier (`meeting_detector.rs`, macOS path) -/

/-- Shorthand for string literals as character lists. -/
def strL (s : String) : List Char := s.toList

/-- `MEETING_URL_MAX_CHARS` from `constants.rs`. -/
def MEETING_URL_MAX_CHARS : Nat := 20

/-- `MEETING_URL_MIN_DASHES` from `constants.rs`. -/
def MEETING_URL_MIN_DASHES : Nat := 2

/-- The `"meet.google.com/"` needle (16 characters). -/
def gmDomain : List Char := strL "meet.google.com/"

/-- The per-line body of the loop in `is_google_meet_room`: the line must
contain `meet.google.com/`, and the part after the domain must either have at
least `MEETING_URL_MIN_DASHES` dashes among its first `MEETING_URL_MAX_CHARS`
characters (and contain a dash), or start with `lookup/`. -/
def meetRoomLine (line : List Char) : Bool :=
  match afterFirst gmDomain line with
  | none => false
  | some suffixFromMatch =>
      let after_domain := suffixFromMatch.drop gmDomain.length
      (after_domain.contains '-' &&
        decide (MEETING_URL_MIN_DASHES ≤
          ((after_domain.take MEETING_URL_MAX_CHARS).filter
            (fun c => c = '-')).length)) ||
      isPrefixList (strL "lookup/") after_domain

/-- `is_google_meet_room` from `meeting_detector.rs`: requires the
`meet.google.com/` needle, excludes landing/settings snapshots, then accepts
iff some line matches the room-code or lookup pattern. -/
def is_google_meet_room (urls : List Char) : Bool :=
  if !containsSub gmDomain urls then false
  else if containsSub (strL "meet.google.com/landing") urls ||
          containsSub (strL "meet.google.com/_meet") urls ||
          containsSub (strL "meet.google.com/?") urls ||
          endsWithSub gmDomain urls then false
  else (rustLines urls).any meetRoomLine

/-- The URL-pattern cascade shared verbatim by `check_chrome_urls` and
`check_safari_urls` (their bodies are textually identical in the source). -/
def classify_browser_urls (urls : List Char) : Option MeetingApp :=
  if is_google_meet_room urls then some .GoogleMeet
  else if containsSub (strL "zoom.us/j/") urls ||
          containsSub (strL "zoom.us/wc/") urls then some .Zoom
  else if containsSub (strL "teams.microsoft.com/l/meetup-join") urls ||
          containsSub (strL "teams.live.com") urls then some .MicrosoftTeams
  else if containsSub (strL "app.slack.com") urls &&
          (containsSub (strL "/huddle/") urls ||
           containsSub (strL "huddle") urls) then some .SlackHuddle
  else none

/-- One snapshot of all probe results for a tick.  Each side-effecting OS
query of `meeting_detector.rs` is replaced by its recorded outcome: `none`
models a failed `Command::output()` (the `.ok()?` paths), and the window
heuristics (`check_zoom_meeting_window`, `check_slack_huddle_active`,
`check_teams_call_active`, `check_discord_voice_active`), which reduce to a
boolean in the source, are recorded booleans. -/
structure ProbeSnapshot where
  processes : Option (List Char)
  zoomMeetingWindow : Bool
  slackHuddleActive : Bool
  teamsCallActive : Bool
  discordVoiceActive : Bool
  chromeUrls : Option (List Char)
  diaLsof : Option (List Char)
  safariUrls : Option (List Char)
  micAudioInfo : Option (List Char)

/-- `check_running_processes`. -/
def check_running_processes (s : ProbeSnapshot) : Option MeetingApp :=
  match s.processes with
  | none => none
  | some ps =>
      if (containsSub (strL "zoom.us") ps || containsSub (strL "CptHost") ps)
          && (containsSub (strL "CptHost") ps || s.zoomMeetingWindow) then
        some .Zoom
      else if containsSub (strL "Slack") ps && s.slackHuddleActive then
        some .SlackHuddle
      else if containsSub (strL "Microsoft Teams") ps && s.teamsCallActive then
        some .MicrosoftTeams
      else if containsSub (strL "Discord") ps && s.discordVoiceActive then
        some .Discord
      else none

/-- `check_dia_microphone_usage`: `lsof -c Dia` output must mention `/dev/`
and one of `audio`, `mic`, `sound`; a failed command yields `false`. -/
def check_dia_microphone_usage (s : ProbeSnapshot) : Bool :=
  match s.diaLsof with
  | none => false
  | some out =>
      containsSub (strL "/dev/") out &&
        (containsSub (strL "audio") out || containsSub (strL "mic") out ||
         containsSub (strL "sound") out)

/-- `check_dia_urls`: Dia has no scriptable tabs, so only the microphone
heuristic is used, yielding an `Unknown` attribution. -/
def check_dia_urls (s : ProbeSnapshot) : Option MeetingApp :=
  if check_dia_microphone_usage s then
    some (.Unknown "Meeting detected in Dia browser")
  else none

/-- `check_chrome_urls`: `none` when the osascript probe fails, else the URL
cascade on the space-joined tab URLs. -/
def check_chrome_urls (s : ProbeSnapshot) : Option MeetingApp :=
  match s.chromeUrls with
  | none => none
  | some urls => classify_browser_urls urls

/-- `check_safari_urls` (same cascade as Chrome). -/
def check_safari_urls (s : ProbeSnapshot) : Option MeetingApp :=
  match s.safariUrls with
  | none => none
  | some urls => classify_browser_urls urls

/-- `check_browser_meeting_urls`: Chrome, then Dia, then Safari. -/
def check_browser_meeting_urls (s : ProbeSnapshot) : Option MeetingApp :=
  match check_chrome_urls s with
  | some app => some app
  | none =>
      match check_dia_urls s with
      | some app => some app
      | none => check_safari_urls s

/-- `check_microphone_usage`: `system_profiler` output mentioning `zoom`
yields Zoom; a failed command yields `none`. -/
def check_microphone_usage (s : ProbeSnapshot) : Option MeetingApp :=
  match s.micAudioInfo with
  | none => none
  | some info =>
      if containsSub (strL "zoom") info then some .Zoom else none

/-- `detect_meeting_apps` (macOS): process signal, then browser signal, then
microphone signal. -/
def detect_meeting_apps (s : ProbeSnapshot) : Option MeetingApp :=
  match check_running_processes s with
  | some app => some app
  | none =>
      match check_browser_meeting_urls s with
      | some app => some app
      | none => check_microphone_usage s

/-! ### Spec-side classifier (refinement target for claim C4)

These definitions follow the spec's words: an ordered list of rules where
"the first matching rule across all three signal categories wins". -/

/-- First `some` in a list of optional results. -/
def firstSome {α : Type} : List (Option α) → Option α
  | [] => none
  | o :: rest =>
      match o with
      | some a => some a
      | none => firstSome rest

/-- Spec wording: "Zoom: path contains `zoom.us/j/` or `zoom.us/wc/`". -/
def zoomUrlRule (urls : List Char) : Option MeetingApp :=
  if containsSub (strL "zoom.us/j/") urls ||
     containsSub (strL "zoom.us/wc/") urls then some .Zoom else none

/-- Spec wording: "Teams: path contains `teams.microsoft.com/l/meetup-join`
or domain `teams.live.com`". -/
def teamsUrlRule (urls : List Char) : Option MeetingApp :=
  if containsSub (strL "teams.microsoft.com/l/meetup-join") urls ||
     containsSub (strL "teams.live.com") urls then some .MicrosoftTeams
  else none

/-- Spec wording: "Slack Huddle: domain `app.slack.com` AND path contains
`huddle`". -/
def slackUrlRule (urls : List Char) : Option MeetingApp :=
  if containsSub (strL "app.slack.com") urls &&
     containsSub (strL "huddle") urls then some .SlackHuddle else none

/-- Spec wording: per-browser URL rules "in this precedence: Google Meet room
→ Zoom → Microsoft Teams → Slack Huddle". -/
def urlRulesSpec (urls : List Char) : Option MeetingApp :=
  firstSome
    [if is_google_meet_room urls then some .GoogleMeet else none,
     zoomUrlRule urls, teamsUrlRule urls, slackUrlRule urls]

/-- Spec-side browser signal: the URL rules applied per browser with
retrievable tab URLs, in the source's fixed browser order (Chrome, Dia,
Safari; Dia contributes only its microphone heuristic). -/
def browserSignalSpec (s : ProbeSnapshot) : Option MeetingApp :=
  firstSome
    [(s.chromeUrls.bind urlRulesSpec), check_dia_urls s,
     (s.safariUrls.bind urlRulesSpec)]

/-- Spec-side classifier: process signal first, browser signal second,
microphone signal last; first matching rule wins, else `none`. -/
def classifierSpec (s : ProbeSnapshot) : Option MeetingApp :=
  firstSome
    [check_running_processes s, browserSignalSpec s,
     check_microphone_usage s]

/-! ### Recording data model (`state.rs`) -/

/-- `RecordingStatus` from `state.rs`. -/
inductive RecordingStatus where
  | Local
  | Uploaded
  | Failed
deriving DecidableEq, Repr

/-- `Recording` from `state.rs`; `timestamp` is `Nat` seconds, `duration` the
formatted `"M:SS"` string. -/
structure Recording where
  id : String
  filename : String
  duration : String
  timestamp : Nat
  status : RecordingStatus
deriving DecidableEq, Repr

/-- `RecordingState` from `state.rs`; file paths are modelled by their
file-name component (all recording paths live in the fixed recordings
directory). -/
inductive RecordingState where
  | Idle
  | Recording (start_time : Nat) (file_path : String)
  | Paused (start_time : Nat) (elapsed : Nat) (file_path : String)
deriving DecidableEq, Repr

/-- `PlaybackState` from `state.rs`. -/
inductive PlaybackState where
  | Idle
  | Playing (recording_id : String) (filename : String) (start_time : Nat)
deriving DecidableEq, Repr

/-- `AudioCommand` from `audio_system.rs` (the `app_handle` payload of
`StartPlayback` carries no model-relevant data). -/
inductive AudioCommand where
  | StartRecording (file_path : String)
  | StopRecording
  | StartPlayback (file_path : String)
  | StopPlayback
deriving DecidableEq, Repr

/-! ### Metadata persistence (`recording_service.rs`) -/

/-- One insertion step of a stable descending sort keyed on `timestamp`. -/
def orderedInsertDesc (a : Recording) : List Recording → List Recording
  | [] => [a]
  | b :: l =>
      if b.timestamp ≤ a.timestamp then a :: b :: l
      else b :: orderedInsertDesc a l

/-- Model of `valid_recordings.sort_by(|a, b| b.timestamp.cmp(&a.timestamp))`.
Rust's `sort_by` is a stable sort; any stable sort of the same total
preorder computes the same list, so a stable insertion sort is a faithful
model. -/
def sortByTimestampDesc : List Recording → List Recording
  | [] => []
  | a :: l => orderedInsertDesc a (sortByTimestampDesc l)

/-- Sorted newest-first: descending (non-strictly) by `timestamp`. -/
def tsDesc (l : List Recording) : Prop :=
  l.Pairwise (fun a b => b.timestamp ≤ a.timestamp)

/-- The retention cap applied in `load_recordings_metadata` (and in
`stop_recording` before saving): truncate to 5 entries when longer. -/
def truncate5 (l : List Recording) : List Recording :=
  if l.length > 5 then l.take 5 else l

/-- `save_recordings_metadata`: serializes the given list to the metadata
file.  The JSON encoding is modelled as the identity (serde's round trip on
`Recording` is faithful), so the result is the new file content.  The source
applies no cap here: the list is written as given. -/
def save_recordings_metadata (recordings : List Recording) :
    Option (List Recording) :=
  some recordings

/-- `load_recordings_metadata`: `file` is the metadata file content (`none`
when the file does not exist), `fileExists` tells which backing audio files
exist in the recordings directory.  A missing metadata file yields `Ok []`;
otherwise entries with missing backing files are dropped, the rest sorted
newest-first and capped at 5. -/
def load_recordings_metadata (file : Option (List Recording))
    (fileExists : String → Bool) : Except String (List Recording) :=
  match file with
  | none => .ok []
  | some recordings =>
      let valid := recordings.filter (fun r => fileExists r.filename)
      let sorted := sortByTimestampDesc valid
      .ok (truncate5 sorted)

/-- Save-then-reload round trip on the metadata file. -/
def saveThenLoad (recordings : List Recording) (fileExists : String → Bool) :
    Except String (List Recording) :=
  load_recordings_metadata (save_recordings_metadata recordings) fileExists

/-! ### Recording lifecycle coordinator (`recording_service.rs`) -/

/-- The coordinator-visible application state: the three locked state
objects and recordings list of `AppState`, plus the on-disk metadata file,
the set of backing audio files in the recordings directory, whether the
audio command channel is up (`RecorderState::command_sender.is_some()`), and
the log of commands sent to the audio pipeline. -/
structure ServiceState where
  recording_state : RecordingState
  playback_state : PlaybackState
  recordings : List Recording
  metadataFile : Option (List Recording)
  files : List String
  audioInit : Bool
  audioCmds : List AudioCommand
deriving DecidableEq, Repr

/-- Two-digit zero-padded rendering of `n % 60`-style second counts
(Rust `{:02}`). -/
def pad2 (n : Nat) : String :=
  if n < 10 then "0" ++ toString n else toString n

/-- The timestamped file name derived in `start_recording`
(`recording_%Y%m%d_%H%M%S.wav`); the chrono date rendering is abstracted to
the decimal seconds value, keeping derivation injective in the timestamp. -/
def recordingFileName (now : Nat) : String :=
  "recording_" ++ toString now ++ ".wav"

/-- Model of `Path::with_extension("opus")` on a file name: replace the part
after the last dot, or append `.opus` when there is no dot. -/
def withExtOpus (name : String) : String :=
  let cs := name.toList
  let base :=
    if cs.contains '.' then
      ((cs.reverse.dropWhile (fun c => c ≠ '.')).drop 1).reverse
    else cs
  String.mk (base ++ strL ".opus")

/-- `start_recording`: derives a timestamped filename, unconditionally
overwrites `RecordingState` with `Recording { start_time, file_path }`
(the source performs no state-machine guard), lazily brings up the audio
command channel (`RecorderState::initialize` always succeeds), and sends
`StartRecording`.  `sendOk` records whether the channel send succeeds; on a
failed send the function errs, but the state was already overwritten. -/
def start_recording (st : ServiceState) (now : Nat) (sendOk : Bool) :
    Except String Unit × ServiceState :=
  let file_path := recordingFileName now
  let st1 := { st with recording_state := .Recording now file_path }
  let st2 := { st1 with audioInit := true }
  if sendOk then
    (.ok (), { st2 with audioCmds := st2.audioCmds ++ [.StartRecording file_path] })
  else
    (.error "Failed to send start command", st2)

/-- `pause_recording`: only the `Recording` arm transitions (to `Paused` with
elapsed whole seconds); every other state errs without mutation. -/
def pause_recording (st : ServiceState) (now : Nat) :
    Except String Unit × ServiceState :=
  match st.recording_state with
  | .Recording start_time file_path =>
      (.ok (),
       { st with recording_state :=
          RecordingState.Paused start_time (now - start_time) file_path })
  | _ => (.error "Not currently recording", st)

/-- `resume_recording`: only the `Paused` arm transitions (back to
`Recording`, preserving `start_time` and `file_path`); every other state errs
without mutation. -/
def resume_recording (st : ServiceState) : Except String Unit × ServiceState :=
  match st.recording_state with
  | .Paused start_time _ file_path =>
      (.ok (), { st with recording_state := .Recording start_time file_path })
  | _ => (.error "Recording is not paused", st)

/-- The tail of `stop_recording` after the state transition and the
`StopRecording` send: compute the duration string, pick the converted file
name on conversion success (`convOk`), build the `Recording` record, prepend
it capped at 5, and persist the list. -/
def finishStop (st : ServiceState) (start_time : Nat) (file_path : String)
    (now : Nat) (convOk : Bool) (newId : String) :
    Except String Recording × ServiceState :=
  let duration_seconds := now - start_time
  let duration :=
    toString (duration_seconds / 60) ++ ":" ++ pad2 (duration_seconds % 60)
  let final_file_path := if convOk then withExtOpus file_path else file_path
  let recording : Recording :=
    { id := newId, filename := final_file_path, duration := duration,
      timestamp := now, status := .Local }
  let recordings := truncate5 (recording :: st.recordings)
  (.ok recording,
   { st with recordings := recordings, metadataFile := some recordings })

/-- The audio-channel block of `stop_recording`: when the channel is up,
send `StopRecording` (a failed send errs with the state already `Idle`) and
drop the channel; when it is not, skip the block. -/
def stopAudioThenFinish (st : ServiceState) (start_time : Nat)
    (file_path : String) (now : Nat) (convOk : Bool) (newId : String)
    (sendOk : Bool) : Except String Recording × ServiceState :=
  if st.audioInit then
    if sendOk then
      finishStop
        { st with audioCmds := st.audioCmds ++ [.StopRecording],
                  audioInit := false }
        start_time file_path now convOk newId
    else (.error "Failed to send stop command", st)
  else finishStop st start_time file_path now convOk newId

/-- `stop_recording`: errs from `Idle` without mutation; from `Recording` or
`Paused` it first sets the state to `Idle`, then stops the pipeline,
converts, records and persists.  `now` is the stop wall-clock, `convOk`
whether the Opus conversion succeeded, `newId` the fresh UUID. -/
def stop_recording (st : ServiceState) (now : Nat) (convOk : Bool)
    (newId : String) (sendOk : Bool) : Except String Recording × ServiceState :=
  match st.recording_state with
  | .Idle => (.error "Not recording", st)
  | .Recording start_time file_path =>
      stopAudioThenFinish { st with recording_state := .Idle }
        start_time file_path now convOk newId sendOk
  | .Paused start_time _ file_path =>
      stopAudioThenFinish { st with recording_state := .Idle }
        start_time file_path now convOk newId sendOk

/-- `stop_playback`: sets `PlaybackState` to `Idle` and, when the audio
channel is up, sends `StopPlayback`. -/
def stop_playback (st : ServiceState) : Except String Unit × ServiceState :=
  let st1 := { st with playback_state := .Idle }
  if st1.audioInit then
    (.ok (), { st1 with audioCmds := st1.audioCmds ++ [.StopPlayback] })
  else (.ok (), st1)

/-- `delete_recording`: errs when no recording carries the id; otherwise
deletes the backing file if present, removes the entry, persists the list,
and stops playback when the deleted recording was playing. -/
def delete_recording (st : ServiceState) (recording_id : String) :
    Except String Unit × ServiceState :=
  match st.recordings.find? (fun r => r.id == recording_id) with
  | none => (.error "Recording not found", st)
  | some recording =>
      let files :=
        if st.files.contains recording.filename then
          st.files.erase recording.filename
        else st.files
      let recordings := st.recordings.filter (fun r => !(r.id == recording_id))
      let st1 := { st with files := files, recordings := recordings,
                           metadataFile := some recordings }
      let should_stop :=
        match st1.playback_state with
        | .Playing playing_id _ _ => playing_id == recording_id
        | .Idle => false
      if should_stop then
        let (res, st2) := stop_playback st1
        match res with
        | .ok _ => (.ok (), st2)
        | .error e => (.error e, st2)
      else (.ok (), st1)

/-! ### Concrete fixtures used by witnesses and counterexamples -/

/-- A concrete coordinator state that is currently `Paused` (claim C2). -/
def stC2 : ServiceState :=
  { recording_state := .Paused 0 5 "old.wav", playback_state := .Idle,
    recordings := [], metadataFile := none, files := [], audioInit := true,
    audioCmds := [] }

/-- A concrete coordinator state that is currently `Recording` (claim C8). -/
def stC8 : ServiceState :=
  { recording_state := .Recording 3 "r.wav", playback_state := .Idle,
    recordings := [], metadataFile := none, files := [], audioInit := true,
    audioCmds := [] }

/-- A concrete coordinator state that is currently `Recording` (claim C5). -/
def stC5 : ServiceState :=
  { recording_state := .Recording 0 "r.wav", playback_state := .Idle,
    recordings := [], metadataFile := none, files := [], audioInit := true,
    audioCmds := [] }

/-- A concrete state holding one recording (claim C10). -/
def stC10 : ServiceState :=
  { recording_state := .Idle,
    playback_state := .Playing "a" "a.opus" 50,
    recordings := [{ id := "a", filename := "a.opus", duration := "0:05",
                     timestamp := 40, status := .Local }],
    metadataFile := some [], files := ["a.opus"], audioInit := true,
    audioCmds := [] }

/-- An older concrete recording (timestamp 1), for claim C6. -/
def rOldC6 : Recording :=
  { id := "a", filename := "a.opus", duration := "0:01", timestamp := 1,
    status := .Local }

/-- A newer concrete recording (timestamp 2), for claim C6. -/
def rNewC6 : Recording :=
  { id := "b", filename := "b.opus", duration := "0:02", timestamp := 2,
    status := .Local }

/-! #### Claim C1 -/

lemma pollTick_inv {st : MeetingState} (h : meetingInv st)
    (d : Option MeetingApp) (n : Nat) : meetingInv (pollTick st d n) := by
  obtain ⟨h1, h2⟩ := h
  cases d with
  | some app =>
      by_cases hm : st.is_in_meeting = true
      · simpa [pollTick, hm] using ⟨h1, h2⟩
      · simp only [Bool.not_eq_true] at hm
        simp [pollTick, hm, meetingInv]
  | none =>
      by_cases hm : st.is_in_meeting = true
      · simp [pollTick, hm, meetingInv]
      · simp only [Bool.not_eq_true] at hm
        simpa [pollTick, hm] using ⟨h1, h2⟩

lemma runTicks_inv {st : MeetingState} (h : meetingInv st) :
    ∀ ticks : List (Option MeetingApp × Nat), meetingInv (runTicks st ticks)
  | [] => h
  | (d, n) :: rest => runTicks_inv (pollTick_inv h d n) rest

/-- Claim C1: starting from the state produced by `MeetingDetector::new`,
every sequence of poll ticks leaves the `MeetingState` invariant intact:
`is_in_meeting` is true iff `detected_app` is `Some` iff `started_at` is
`Some` at every reachable state. -/
theorem C1_meeting_state_invariant
    (ticks : List (Option MeetingApp × Nat)) :
    meetingInv (runTicks newMeetingState ticks) := by
  have h0 : meetingInv newMeetingState := by constructor <;> rfl
  exact runTicks_inv h0 ticks

/-! #### Claim C7 -/

/-- Claim C7: `start_monitoring` fails with the already-monitoring error
exactly when the monitoring flag is set, and otherwise just sets the flag;
`stop_monitoring` when not monitoring is a no-op (flag stays false, shared
`MeetingState` untouched), and never touches the `MeetingState` at all. -/
theorem C7_monitoring_guard (d : DetectorState) :
    (if d.monitoring = true then
        start_monitoring d = .error "Already monitoring"
      else
        start_monitoring d = .ok { d with monitoring := true } ∧
        stop_monitoring d = d) ∧
    (stop_monitoring d).state = d.state ∧
    (stop_monitoring d).monitoring = false := by
  obtain ⟨s, m⟩ := d
  cases m <;> simp [start_monitoring, stop_monitoring]

/-! #### Claim C9 -/

/-- Claim C9: when the metadata file does not exist, loading the recordings
metadata returns `Ok` with the empty list for every state of the backing
audio files. -/
theorem C9_load_missing_metadata_file (fileExists : String → Bool) :
    load_recordings_metadata none fileExists = .ok [] := rfl

/-! #### Claim C2 -/

/-- Claim C2 counterexample: from a `Paused` state (with the audio channel
up and the send succeeding), `start_recording` returns `Ok` — not an error —
and the `RecordingState` is mutated to a fresh `Recording` variant. -/
theorem C2_counterexample :
    (start_recording stC2 100 true).1 = .ok () ∧
    (start_recording stC2 100 true).2.recording_state =
      .Recording 100 "recording_100.wav" ∧
    (start_recording stC2 100 true).2.recording_state ≠
      stC2.recording_state := by
  refine ⟨rfl, by decide, by decide⟩

/-- Claim C2 amended: `start_recording` performs no state-machine guard.
From every starting state — `Idle`, `Recording` or `Paused` alike — it
overwrites `RecordingState` with `Recording { now, derived filename }`
(never returning an already-recording error), leaves the recordings list
unchanged, and returns `Ok` whenever the pipeline send succeeds. -/
theorem C2_start_recording_no_guard (st : ServiceState) (now : Nat)
    (sendOk : Bool) :
    (start_recording st now sendOk).2.recording_state =
      .Recording now (recordingFileName now) ∧
    (start_recording st now sendOk).2.recordings = st.recordings ∧
    (sendOk = true → (start_recording st now sendOk).1 = .ok ()) := by
  cases sendOk <;> simp [start_recording]

/-- Witness for the amended claim C2 at a concrete `Paused` state. -/
theorem C2_start_recording_no_guard_witness :
    (start_recording stC2 7 true).1 = .ok () :=
  (C2_start_recording_no_guard stC2 7 true).2.2 rfl

/-! #### Claim C8 -/

/-- Claim C8: `pause_recording` succeeds exactly from `Recording`, moving to
`Paused` with elapsed `now - start_time` whole seconds and the same
`start_time`/`file_path`; `resume_recording` succeeds exactly from `Paused`,
moving back to `Recording` with the original `start_time`/`file_path`; all
other calls err without mutating anything; and pause-then-resume from
`Recording` restores the original `Recording` state. -/
theorem C8_pause_resume (st : ServiceState) (now : Nat) :
    (match st.recording_state with
     | .Recording t p =>
         pause_recording st now =
           (.ok (), { st with recording_state := .Paused t (now - t) p })
     | _ => pause_recording st now = (.error "Not currently recording", st)) ∧
    (match st.recording_state with
     | .Paused t _ p =>
         resume_recording st =
           (.ok (), { st with recording_state := .Recording t p })
     | _ => resume_recording st = (.error "Recording is not paused", st)) ∧
    (∀ t p, st.recording_state = .Recording t p →
      (resume_recording (pause_recording st now).2).2.recording_state =
        .Recording t p) := by
  obtain ⟨rs, ps, recs, mf, fs, ai, ac⟩ := st
  cases rs <;> simp [pause_recording, resume_recording]

/-- Witness for claim C8: pause then resume at a concrete `Recording` state
restores the original variant. -/
theorem C8_pause_resume_witness :
    (resume_recording (pause_recording stC8 10).2).2.recording_state =
      .Recording 3 "r.wav" :=
  (C8_pause_resume stC8 10).2.2 3 "r.wav" rfl

/-! #### Claim C5 -/

/-- Claim C5: `stop_recording` is legal exactly from `Recording` and
`Paused`: from those states the `RecordingState` transitions to `Idle` and
(when the pipeline send succeeds) a `Recording` record is returned; from
`Idle` it fails with an error and the entire state — recording state,
recordings list, metadata file, files, command log — is exactly as before. -/
theorem C5_stop_recording (st : ServiceState) (now : Nat) (convOk : Bool)
    (newId : String) (sendOk : Bool) :
    match st.recording_state with
    | .Idle =>
        stop_recording st now convOk newId sendOk = (.error "Not recording", st)
    | _ =>
        (stop_recording st now convOk newId sendOk).2.recording_state =
          .Idle ∧
        (sendOk = true →
          ∃ r, (stop_recording st now convOk newId sendOk).1 = .ok r) := by
  obtain ⟨rs, ps, recs, mf, fs, ai, ac⟩ := st
  cases rs <;> cases ai <;> cases sendOk <;>
    simp [stop_recording, stopAudioThenFinish, finishStop]

/-- Witness for claim C5 at a concrete `Recording` state. -/
theorem C5_stop_recording_witness :
    (stop_recording stC5 61 true "u1" true).2.recording_state = .Idle ∧
    ∃ r, (stop_recording stC5 61 true "u1" true).1 = .ok r :=
  ⟨(C5_stop_recording stC5 61 true "u1" true).1,
   (C5_stop_recording stC5 61 true "u1" true).2 rfl⟩

/-! #### Claim C10 -/

/-- Claim C10: `delete_recording` with an id absent from the recordings list
returns the not-found error and returns the state exactly as it was —
recordings list, metadata file, backing audio files and `PlaybackState`
untouched. -/
theorem C10_delete_missing_id (st : ServiceState) (recording_id : String)
    (h : ∀ r ∈ st.recordings, r.id ≠ recording_id) :
    delete_recording st recording_id = (.error "Recording not found", st) := by
  have hf : st.recordings.find? (fun r => r.id == recording_id) = none := by
    rw [List.find?_eq_none]
    intro r hr
    simp [h r hr]
  simp [delete_recording, hf]

/-- Witness for claim C10: deleting an absent id at a concrete state. -/
theorem C10_delete_missing_id_witness :
    delete_recording stC10 "zzz" = (.error "Recording not found", stC10) :=
  C10_delete_missing_id stC10 "zzz" (by decide)

/-! #### Substring lemmas -/

lemma isPrefixOf_exists {n h : List Char} :
    n.isPrefixOf h = true ↔ ∃ t, h = n ++ t := by
  induction n generalizing h with
  | nil => simp [List.isPrefixOf]
  | cons a as ih =>
      cases h with
      | nil => simp [List.isPrefixOf]
      | cons b bs =>
          simp only [List.isPrefixOf, Bool.and_eq_true, beq_iff_eq, ih,
            List.cons_append]
          constructor
          · rintro ⟨rfl, t, rfl⟩
            exact ⟨t, rfl⟩
          · rintro ⟨t, ht⟩
            injection ht with h1 h2
            exact ⟨h1.symm, t, h2⟩

lemma containsSub_exists {n h : List Char} :
    containsSub n h = true ↔ ∃ s t, h = s ++ n ++ t := by
  induction h with
  | nil =>
      simp only [containsSub, List.isEmpty_iff]
      constructor
      · rintro rfl
        exact ⟨[], [], rfl⟩
      · rintro ⟨s, t, ht⟩
        rcases List.append_eq_nil.mp ht.symm with ⟨h1, h2⟩
        rcases List.append_eq_nil.mp h1 with ⟨_, h3⟩
        exact h3
  | cons c rest ih =>
      simp only [containsSub, Bool.or_eq_true, isPrefixOf_exists, ih]
      constructor
      · rintro (⟨t, ht⟩ | ⟨s, t, ht⟩)
        · exact ⟨[], t, by simpa using ht⟩
        · exact ⟨c :: s, t, by simp [ht]⟩
      · rintro ⟨s, t, ht⟩
        cases s with
        | nil =>
            left
            exact ⟨t, by simpa using ht⟩
        | cons s0 s1 =>
            right
            rw [List.cons_append, List.cons_append] at ht
            injection ht with h1 h2
            exact ⟨s1, t, h2⟩

lemma containsSub_huddle {u : List Char}
    (h : containsSub (strL "/huddle/") u = true) :
    containsSub (strL "huddle") u = true := by
  obtain ⟨s, t, rfl⟩ := containsSub_exists.mp h
  apply containsSub_exists.mpr
  refine ⟨s ++ ['/'], '/' :: t, ?_⟩
  have hsplit : strL "/huddle/" = '/' :: (strL "huddle" ++ ['/']) := by decide
  rw [hsplit]
  simp

/-! #### Claim C3 -/

/-- Claim C3: the Google Meet room classifier accepts a URL snapshot only if
it contains `meet.google.com/`, matches none of the landing/settings
exclusions (`/landing`, `/_meet`, a bare `/?query`, a bare trailing slash),
and some line's segment after the domain contains a dash or starts with
`lookup/`; and on the spec's four examples it detects
`meet.google.com/abc-def-ghi` but not `meet.google.com/`,
`meet.google.com/landing` or `meet.google.com/?x=1`. -/
theorem C3_google_meet_classifier :
    (∀ urls : List Char, is_google_meet_room urls = true →
      containsSub gmDomain urls = true ∧
      containsSub (strL "meet.google.com/landing") urls = false ∧
      containsSub (strL "meet.google.com/_meet") urls = false ∧
      containsSub (strL "meet.google.com/?") urls = false ∧
      endsWithSub gmDomain urls = false ∧
      ∃ line ∈ rustLines urls, ∃ sfx, afterFirst gmDomain line = some sfx ∧
        ((sfx.drop gmDomain.length).contains '-' = true ∨
          isPrefixList (strL "lookup/") (sfx.drop gmDomain.length) = true)) ∧
    is_google_meet_room (strL "meet.google.com/abc-def-ghi") = true ∧
    is_google_meet_room (strL "meet.google.com/") = false ∧
    is_google_meet_room (strL "meet.google.com/landing") = false ∧
    is_google_meet_room (strL "meet.google.com/?x=1") = false := by
  refine ⟨?_, by decide, by decide, by decide, by decide⟩
  intro urls h
  unfold is_google_meet_room at h
  split_ifs at h with h1 h2
  have hc : containsSub gmDomain urls = true := by
    simpa using h1
  simp only [Bool.or_eq_true, not_or, Bool.not_eq_true] at h2
  obtain ⟨⟨⟨hl, hm⟩, hq⟩, he⟩ := h2
  obtain ⟨line, hline, hml⟩ := List.any_eq_true.mp h
  refine ⟨hc, hl, hm, hq, he, line, hline, ?_⟩
  unfold meetRoomLine at hml
  cases haf : afterFirst gmDomain line with
  | none => rw [haf] at hml; cases hml
  | some sfx =>
      rw [haf] at hml
      simp only [Bool.or_eq_true, Bool.and_eq_true] at hml
      refine ⟨sfx, rfl, ?_⟩
      rcases hml with ⟨hd, _⟩ | hlk
      · exact Or.inl hd
      · exact Or.inr hlk

/-- Witness for claim C3: the only-if direction instantiated at the accepted
room URL `meet.google.com/abc-def-ghi`. -/
theorem C3_google_meet_classifier_witness :
    ∃ line ∈ rustLines (strL "meet.google.com/abc-def-ghi"),
      ∃ sfx, afterFirst gmDomain line = some sfx ∧
        ((sfx.drop gmDomain.length).contains '-' = true ∨
          isPrefixList (strL "lookup/") (sfx.drop gmDomain.length) = true) :=
  (C3_google_meet_classifier.1 (strL "meet.google.com/abc-def-ghi")
    (by decide)).2.2.2.2.2

/-! #### Claim C4 -/

lemma huddle_or_collapse (u : List Char) :
    (containsSub (strL "/huddle/") u || containsSub (strL "huddle") u) =
      containsSub (strL "huddle") u := by
  cases h6 : containsSub (strL "huddle") u
  · cases h5 : containsSub (strL "/huddle/") u
    · rfl
    · exact absurd (containsSub_huddle h5) (by simp [h6])
  · simp

lemma classify_browser_urls_eq_spec (u : List Char) :
    classify_browser_urls u = urlRulesSpec u := by
  unfold classify_browser_urls urlRulesSpec zoomUrlRule teamsUrlRule
    slackUrlRule firstSome
  rw [huddle_or_collapse]
  by_cases h1 : is_google_meet_room u = true <;>
    by_cases h2 : (containsSub (strL "zoom.us/j/") u ||
      containsSub (strL "zoom.us/wc/") u) = true <;>
    by_cases h3 : (containsSub (strL "teams.microsoft.com/l/meetup-join") u ||
      containsSub (strL "teams.live.com") u) = true <;>
    by_cases h4 : (containsSub (strL "app.slack.com") u &&
      containsSub (strL "huddle") u) = true <;>
    simp [h1, h2, h3, h4, firstSome]

/-- Claim C4: the classifier equals the spec's first-match cascade — process
signal first, browser signal second (per browser, Google Meet room → Zoom →
Teams → Slack Huddle with the stated URL patterns), microphone signal last,
`none` when no rule matches. -/
theorem C4_classifier_precedence (s : ProbeSnapshot) :
    detect_meeting_apps s = classifierSpec s := by
  unfold detect_meeting_apps classifierSpec browserSignalSpec
    check_browser_meeting_urls check_chrome_urls check_safari_urls
  cases hp : check_running_processes s with
  | some app => simp [firstSome]
  | none =>
      cases hc : s.chromeUrls with
      | none =>
          cases hd : check_dia_urls s with
          | some dapp => simp [firstSome]
          | none =>
              cases hs : s.safariUrls with
              | none =>
                  cases hm : check_microphone_usage s <;> simp [firstSome, hm]
              | some su =>
                  cases hu : urlRulesSpec su <;>
                    cases hm : check_microphone_usage s <;>
                      simp [firstSome, classify_browser_urls_eq_spec, hu, hm]
      | some cu =>
          cases hu : urlRulesSpec cu with
          | some uapp => simp [firstSome, classify_browser_urls_eq_spec, hu]
          | none =>
              cases hd : check_dia_urls s with
              | some dapp =>
                  simp [firstSome, classify_browser_urls_eq_spec, hu]
              | none =>
                  cases hs : s.safariUrls with
                  | none =>
                      cases hm : check_microphone_usage s <;>
                        simp [firstSome, classify_browser_urls_eq_spec, hu, hm]
                  | some su =>
                      cases hu2 : urlRulesSpec su <;>
                        cases hm : check_microphone_usage s <;>
                          simp [firstSome, classify_browser_urls_eq_spec, hu,
                            hu2, hm]

/-! #### Sorting and truncation lemmas -/

lemma mem_orderedInsertDesc {x a : Recording} {l : List Recording} :
    x ∈ orderedInsertDesc a l ↔ x = a ∨ x ∈ l := by
  induction l with
  | nil => simp [orderedInsertDesc]
  | cons b t ih =>
      by_cases hb : b.timestamp ≤ a.timestamp
      · simp [orderedInsertDesc, hb]
      · simp [orderedInsertDesc, hb, ih]
        tauto

lemma tsDesc_orderedInsertDesc {a : Recording} {l : List Recording}
    (h : tsDesc l) : tsDesc (orderedInsertDesc a l) := by
  induction l with
  | nil => simp [orderedInsertDesc, tsDesc]
  | cons b t ih =>
      rw [tsDesc, List.pairwise_cons] at h
      obtain ⟨hb, ht⟩ := h
      by_cases hba : b.timestamp ≤ a.timestamp
      · rw [orderedInsertDesc, if_pos hba, tsDesc, List.pairwise_cons]
        refine ⟨?_, List.pairwise_cons.mpr ⟨hb, ht⟩⟩
        intro y hy
        rcases List.mem_cons.mp hy with rfl | hyt
        · exact hba
        · exact le_trans (hb y hyt) hba
      · rw [orderedInsertDesc, if_neg hba, tsDesc, List.pairwise_cons]
        refine ⟨?_, ih ht⟩
        intro y hy
        rcases mem_orderedInsertDesc.mp hy with rfl | hyt
        · omega
        · exact hb y hyt

lemma tsDesc_sortByTimestampDesc (l : List Recording) :
    tsDesc (sortByTimestampDesc l) := by
  induction l with
  | nil => simp [sortByTimestampDesc, tsDesc]
  | cons a t ih =>
      rw [sortByTimestampDesc]
      exact tsDesc_orderedInsertDesc ih

lemma mem_sortByTimestampDesc {x : Recording} {l : List Recording} :
    x ∈ sortByTimestampDesc l ↔ x ∈ l := by
  induction l with
  | nil => simp [sortByTimestampDesc]
  | cons a t ih =>
      rw [sortByTimestampDesc, mem_orderedInsertDesc]
      simp [ih]

lemma sortByTimestampDesc_eq_self :
    ∀ l : List Recording, tsDesc l → sortByTimestampDesc l = l := by
  intro l
  induction l with
  | nil => intro _; rfl
  | cons a t ih =>
      intro h
      rw [tsDesc, List.pairwise_cons] at h
      obtain ⟨ha, ht⟩ := h
      rw [sortByTimestampDesc, ih ht]
      cases t with
      | nil => rfl
      | cons b t2 =>
          rw [orderedInsertDesc, if_pos (ha b (by simp))]

lemma truncate5_length (l : List Recording) : (truncate5 l).length ≤ 5 := by
  by_cases h : l.length > 5
  · simp [truncate5, h]
  · simp [truncate5, h]
    omega

lemma truncate5_eq_self {l : List Recording} (h : l.length ≤ 5) :
    truncate5 l = l := by
  have h5 : ¬ l.length > 5 := by omega
  simp [truncate5, h5]

lemma mem_truncate5 {x : Recording} {l : List Recording}
    (h : x ∈ truncate5 l) : x ∈ l := by
  by_cases h5 : l.length > 5
  · simp [truncate5, h5] at h
    exact (List.take_sublist 5 l).mem h
  · simpa [truncate5, h5] using h

lemma tsDesc_truncate5 {l : List Recording} (h : tsDesc l) :
    tsDesc (truncate5 l) := by
  by_cases h5 : l.length > 5
  · simp only [truncate5, h5, if_pos]
    exact List.Pairwise.sublist (List.take_sublist 5 l) h
  · simpa [truncate5, h5] using h

/-! #### Claim C6 -/

/-- Claim C6 counterexample: a two-entry list saved oldest-first, with both
backing files present, reloads in the opposite (newest-first) order — the
save/load round trip is not the identity on arbitrary lists. -/
theorem C6_counterexample :
    saveThenLoad [rOldC6, rNewC6] (fun _ => true) = .ok [rNewC6, rOldC6] ∧
    [rNewC6, rOldC6] ≠ [rOldC6, rNewC6] := by
  exact ⟨rfl, by decide⟩

/-- Claim C6 amended: the save/load round trip is the identity when the
saved list is already sorted newest-first and holds at most 5 entries, all
with existing backing files (save itself writes the list verbatim and applies
no cap — the cap is applied on load and by `stop_recording` before saving);
and every loaded list drops entries with missing backing files, is sorted
newest-first, is capped at 5 entries, and contains only saved entries. -/
theorem C6_metadata_round_trip (recordings : List Recording)
    (fileExists : String → Bool) :
    (tsDesc recordings → recordings.length ≤ 5 →
      (∀ r ∈ recordings, fileExists r.filename = true) →
      saveThenLoad recordings fileExists = .ok recordings) ∧
    (∀ out, load_recordings_metadata (some recordings) fileExists = .ok out →
      out.length ≤ 5 ∧ tsDesc out ∧
      ∀ r ∈ out, fileExists r.filename = true ∧ r ∈ recordings) := by
  constructor
  · intro hs hl hex
    unfold saveThenLoad save_recordings_metadata load_recordings_metadata
    have hf : recordings.filter (fun r => fileExists r.filename) =
        recordings := List.filter_eq_self.mpr hex
    simp only [hf, sortByTimestampDesc_eq_self recordings hs,
      truncate5_eq_self hl]
  · intro out hout
    simp only [load_recordings_metadata, Except.ok.injEq] at hout
    subst hout
    refine ⟨truncate5_length _,
      tsDesc_truncate5 (tsDesc_sortByTimestampDesc _), ?_⟩
    intro r hr
    have h1 := mem_sortByTimestampDesc.mp (mem_truncate5 hr)
    have h2 := List.mem_filter.mp h1
    exact ⟨h2.2, h2.1⟩

/-- Witness for the amended claim C6 at a concrete sorted two-entry list
with all backing files present. -/
theorem C6_metadata_round_trip_witness :
    saveThenLoad [rNewC6, rOldC6] (fun _ => true) = .ok [rNewC6, rOldC6] :=
  (C6_metadata_round_trip [rNewC6, rOldC6] (fun _ => true)).1
    (by rw [tsDesc]; decide) (by decide) (by decide)

end Vox
